import Mathlib

/-!
# Verification of the File_Management terminal file browser

Shallow embedding of the application core of `src/app.rs` and `src/ops.rs`:
the application state, the action reducer (`AppState::reduce`), the preview
classifier (`DefaultPreviewLoader::load`) and the directory reader
(`read_entries`).

Modelling conventions:
* `PathBuf` is modelled as a list of path components (`Path := List String`);
  `parent` drops the last component (and is `none` on the empty path),
  `join` appends one component, `file_name` is the last component
  (`""` when there is none, matching `unwrap_or_default`).
* The `HashSet<PathBuf>` of selected paths is modelled as a duplicate-free
  `List Path`: `insert` conses when absent, `remove` erases.
* Filesystem reads performed inside `reduce` (`read_entries`,
  `std::fs::metadata`) are supplied by an oracle (`FsOracle`); each arm of
  `reduce` performs at most one directory read and one metadata read, so a
  single oracle response per call captures the fallible I/O exactly.
  Filesystem *writes* (`ops::copy_recursive`, `ops::delete_path`,
  `ops::set_permissions`, spawning `xdg-open`) have no effect on the
  in-memory state; `reduce` returns the list of such requests (`FsEffect`)
  alongside the new state so that frame conditions about "no filesystem
  mutation / no reload" are expressible.
* `u32` mode words are modelled as `Nat` (all operations used on them —
  bitwise and, xor with a constant `< 2^9` — never overflow 32 bits).
* File contents are byte lists (`List Nat`); `std::fs::read_to_string`
  succeeds exactly on valid UTF-8, modelled by a byte-level UTF-8 decoder
  (`utf8Decode`) implementing the standard validity table (the same table
  Rust's `std::str::from_utf8` checks).
* The `syntax_set`/`theme_set` fields of `AppState` are render-only
  (immutable syntax-highlighting assets, never touched by `reduce`) and are
  omitted from the state record.
-/

namespace FileManagement

/-- A filesystem path, as its list of components (model of `PathBuf`). -/
abbrev Path := List String

/-- Model of `PathBuf::parent`: drop the final component; `none` when there
is no component to drop. -/
def Path.parent (p : Path) : Option Path :=
  if p = [] then none else some p.dropLast

/-- Model of `PathBuf::file_name().unwrap_or_default()`: the final
component, or `""` when there is none. -/
def Path.fileName (p : Path) : String :=
  (p.getLast?).getD ""

/-- Model of `PathBuf::join` with a single component. -/
def Path.join (p : Path) (n : String) : Path := p ++ [n]

/-- `enum ClipboardOp` of `app.rs` (only `Copy` exists). -/
inductive ClipboardOp where
  | copy
deriving DecidableEq, Repr

/-- `enum ActiveFocus` of `app.rs`. -/
inductive ActiveFocus where
  | fileList
  | preview
deriving DecidableEq, Repr

/-- `enum PopupState` of `app.rs`: closed (`None`), or the chmod editor with
target path, pending mode word and grid cursor (0–8). -/
inductive PopupState where
  | none
  | chmod (path : Path) (mode : Nat) (cursor_idx : Nat)
deriving DecidableEq, Repr

/-- `struct FsEntry` of `app.rs`. -/
structure FsEntry where
  path : Path
  name : String
  is_dir : Bool
  size : Nat
  permissions : String
deriving DecidableEq, Repr

/-- `enum PreviewContent` of `app.rs`. -/
inductive PreviewContent where
  | text (title : String) (content : String)
  | binary (title : String) (size : Nat)
  | image (title : String) (width : Nat) (height : Nat) (color_type : String)
deriving DecidableEq, Repr

/-- `enum PreviewState` of `app.rs`. -/
inductive PreviewState where
  | none
  | ready (content : PreviewContent)
  | loading (path : Path)
  | error (path : Path) (message : String)
deriving DecidableEq, Repr

/-- `struct AppState` of `app.rs` (without the render-only highlighting
asset fields `syntax_set` and `theme_set`). -/
structure AppState where
  cwd : Path
  entries : List FsEntry
  cursor : Nat
  selected : List Path
  preview : PreviewState
  clipboard : Option (ClipboardOp × List Path)
  active_focus : ActiveFocus
  preview_scroll : Nat
  popup : PopupState
deriving DecidableEq, Repr

/-- `enum Action` of `app.rs`. -/
inductive Action where
  | cursorMoveUp
  | cursorMoveDown
  | requestPreview (path : Path)
  | toggleSelect
  | enterDir
  | goBack
  | previewReady (content : PreviewContent)
  | previewError (path : Path) (error : String)
  | yank
  | paste
  | delete
  | chmod
  | «open»
  | switchFocus
  | scrollPreviewUp
  | scrollPreviewDown
  | scrollPreviewPageUp
  | scrollPreviewPageDown
  | popupUp
  | popupDown
  | popupLeft
  | popupRight
  | popupToggle
  | popupSubmit
  | popupCancel
deriving DecidableEq, Repr

/-- Oracle supplying the results of the fallible filesystem *reads* that
`AppState::reduce` performs: `read_entries(path)` (`none` = `Err`) and
`std::fs::metadata(path).permissions().mode()` (`none` = `Err`). -/
structure FsOracle where
  readEntries : Path → Option (List FsEntry)
  metadataMode : Path → Option Nat

/-- Filesystem requests issued by one `reduce` step, in program order:
writes (`ops::copy_recursive`, `ops::delete_path`, `ops::set_permissions`,
spawning `xdg-open`) and reads (`read_entries`, `std::fs::metadata`). -/
inductive FsEffect where
  | copy (src dst : Path)
  | delete (path : Path)
  | setPermissions (path : Path) (mode : Nat)
  | spawn (path : Path)
  | readDir (path : Path)
  | metadata (path : Path)
deriving DecidableEq, Repr

/-- The single permission bit toggled by `PopupToggle` for a grid cursor
index, exactly the `match` table of the `PopupToggle` arm. -/
def toggleBit (cursor_idx : Nat) : Nat :=
  match cursor_idx with
  | 0 => 0o400 | 1 => 0o200 | 2 => 0o100
  | 3 => 0o040 | 4 => 0o020 | 5 => 0o010
  | 6 => 0o004 | 7 => 0o002 | 8 => 0o001
  | _ => 0

/-- Shallow embedding of `AppState::reduce` (`app.rs`). Returns the new
state together with the list of filesystem requests issued, in program
order.  Fallible reads take their results from the oracle `fs`. -/
def reduce (fs : FsOracle) (s : AppState) (a : Action) : AppState × List FsEffect :=
  match a with
  | .cursorMoveUp =>
    if s.active_focus = .fileList then
      if 0 < s.cursor then ({ s with cursor := s.cursor - 1 }, []) else (s, [])
    else (s, [])
  | .cursorMoveDown =>
    if s.active_focus = .fileList then
      if s.cursor + 1 < s.entries.length then ({ s with cursor := s.cursor + 1 }, [])
      else (s, [])
    else (s, [])
  | .enterDir =>
    let new_cwd :=
      match s.entries[s.cursor]? with
      | some entry => if entry.is_dir then entry.path else s.cwd
      | none => s.cwd
    if new_cwd ≠ s.cwd then
      match fs.readEntries new_cwd with
      | some entries =>
        ({ s with cwd := new_cwd, entries := entries, cursor := 0,
                  preview := .none, preview_scroll := 0 }, [.readDir new_cwd])
      | none => (s, [.readDir new_cwd])
    else (s, [])
  | .goBack =>
    match s.cwd.parent with
    | some new_cwd =>
      match fs.readEntries new_cwd with
      | some entries =>
        ({ s with cwd := new_cwd, entries := entries, cursor := 0,
                  preview := .none, preview_scroll := 0 }, [.readDir new_cwd])
      | none => (s, [.readDir new_cwd])
    | none => (s, [])
  | .requestPreview path =>
    ({ s with preview := .loading path, preview_scroll := 0 }, [])
  | .toggleSelect =>
    match s.entries[s.cursor]? with
    | some entry =>
      if entry.path ∈ s.selected then
        ({ s with selected := s.selected.erase entry.path }, [])
      else
        ({ s with selected := entry.path :: s.selected }, [])
    | none => (s, [])
  | .yank =>
    let paths : List Path :=
      if s.selected.isEmpty then
        match s.entries[s.cursor]? with
        | some entry => [entry.path]
        | none => []
      else s.selected
    if paths.isEmpty then (s, [])
    else ({ s with clipboard := some (.copy, paths), selected := [] }, [])
  | .paste =>
    match s.clipboard with
    | some (.copy, srcs) =>
      let copies := srcs.map (fun src => FsEffect.copy src (s.cwd.join src.fileName))
      match fs.readEntries s.cwd with
      | some entries => ({ s with entries := entries }, copies ++ [.readDir s.cwd])
      | none => (s, copies ++ [.readDir s.cwd])
    | none => (s, [])
  | .delete =>
    let paths : List Path :=
      if s.selected.isEmpty then
        match s.entries[s.cursor]? with
        | some entry => [entry.path]
        | none => []
      else s.selected
    let dels := paths.map FsEffect.delete
    match fs.readEntries s.cwd with
    | some entries =>
      let cursor :=
        if entries.length ≤ s.cursor ∧ entries ≠ [] then entries.length - 1
        else s.cursor
      ({ s with selected := [], entries := entries, cursor := cursor },
       dels ++ [.readDir s.cwd])
    | none => ({ s with selected := [] }, dels ++ [.readDir s.cwd])
  | .chmod =>
    match s.entries[s.cursor]? with
    | some entry =>
      match fs.metadataMode entry.path with
      | some mode =>
        ({ s with popup := .chmod entry.path mode 0 }, [.metadata entry.path])
      | none => (s, [.metadata entry.path])
    | none => (s, [])
  | .«open» =>
    match s.entries[s.cursor]? with
    | some entry => (s, [.spawn entry.path])
    | none => (s, [])
  | .previewReady content =>
    ({ s with preview := .ready content }, [])
  | .previewError path error =>
    ({ s with preview := .error path error }, [])
  | .switchFocus =>
    ({ s with active_focus :=
        match s.active_focus with
        | .fileList => .preview
        | .preview => .fileList }, [])
  | .scrollPreviewUp =>
    if s.active_focus = .preview then
      if 0 < s.preview_scroll then ({ s with preview_scroll := s.preview_scroll - 1 }, [])
      else (s, [])
    else (s, [])
  | .scrollPreviewDown =>
    if s.active_focus = .preview then
      ({ s with preview_scroll := s.preview_scroll + 1 }, [])
    else (s, [])
  | .scrollPreviewPageUp =>
    if s.active_focus = .preview then
      ({ s with preview_scroll := s.preview_scroll - 10 }, [])
    else (s, [])
  | .scrollPreviewPageDown =>
    if s.active_focus = .preview then
      ({ s with preview_scroll := s.preview_scroll + 10 }, [])
    else (s, [])
  | .popupUp =>
    match s.popup with
    | .chmod path mode cursor_idx =>
      if 3 ≤ cursor_idx then ({ s with popup := .chmod path mode (cursor_idx - 3) }, [])
      else (s, [])
    | .none => (s, [])
  | .popupDown =>
    match s.popup with
    | .chmod path mode cursor_idx =>
      if cursor_idx < 6 then ({ s with popup := .chmod path mode (cursor_idx + 3) }, [])
      else (s, [])
    | .none => (s, [])
  | .popupLeft =>
    match s.popup with
    | .chmod path mode cursor_idx =>
      if 0 < cursor_idx % 3 then ({ s with popup := .chmod path mode (cursor_idx - 1) }, [])
      else (s, [])
    | .none => (s, [])
  | .popupRight =>
    match s.popup with
    | .chmod path mode cursor_idx =>
      if cursor_idx % 3 < 2 then ({ s with popup := .chmod path mode (cursor_idx + 1) }, [])
      else (s, [])
    | .none => (s, [])
  | .popupToggle =>
    match s.popup with
    | .chmod path mode cursor_idx =>
      let bit := toggleBit cursor_idx
      if bit ≠ 0 then ({ s with popup := .chmod path (mode ^^^ bit) cursor_idx }, [])
      else (s, [])
    | .none => (s, [])
  | .popupSubmit =>
    match s.popup with
    | .chmod path mode _ =>
      match fs.readEntries s.cwd with
      | some entries =>
        ({ s with entries := entries, popup := .none },
         [.setPermissions path mode, .readDir s.cwd])
      | none =>
        ({ s with popup := .none }, [.setPermissions path mode, .readDir s.cwd])
    | .none => ({ s with popup := .none }, [])
  | .popupCancel =>
    ({ s with popup := .none }, [])

/-- The initial `AppState` built in `main.rs` (cursor 0, nothing selected,
no preview, no clipboard, file-list focus, scroll 0, popup closed), with
the initial working directory and its listing as parameters. -/
def initialState (cwd : Path) (entries : List FsEntry) : AppState :=
  { cwd := cwd, entries := entries, cursor := 0, selected := [],
    preview := .none, clipboard := Option.none, active_focus := .fileList,
    preview_scroll := 0, popup := .none }

/-! ## Preview classifier (`DefaultPreviewLoader::load`) -/

/-- Is `b` a UTF-8 continuation byte (`0x80–0xBF`)? -/
def isUtf8Cont (b : Nat) : Bool := 0x80 ≤ b && b ≤ 0xBF

/-- Byte-level UTF-8 decoder: `some` exactly on valid UTF-8 (the standard
validity table, the one Rust's `std::str::from_utf8` — and hence
`std::fs::read_to_string` — enforces: no overlong forms, no surrogates,
nothing above `U+10FFFF`). -/
def utf8Decode : List Nat → Option (List Char)
  | [] => some []
  | b :: rest =>
    if b ≤ 0x7F then
      match utf8Decode rest with
      | some cs => some (Char.ofNat b :: cs)
      | none => none
    else if 0xC2 ≤ b && b ≤ 0xDF then
      match rest with
      | c1 :: rest1 =>
        if isUtf8Cont c1 then
          match utf8Decode rest1 with
          | some cs => some (Char.ofNat ((b - 0xC0) * 0x40 + (c1 - 0x80)) :: cs)
          | none => none
        else none
      | [] => none
    else if 0xE0 ≤ b && b ≤ 0xEF then
      match rest with
      | c1 :: c2 :: rest2 =>
        let lo1 : Nat := if b = 0xE0 then 0xA0 else 0x80
        let hi1 : Nat := if b = 0xED then 0x9F else 0xBF
        if (lo1 ≤ c1 && c1 ≤ hi1) && isUtf8Cont c2 then
          match utf8Decode rest2 with
          | some cs =>
            some (Char.ofNat ((b - 0xE0) * 0x1000 + (c1 - 0x80) * 0x40 + (c2 - 0x80)) :: cs)
          | none => none
        else none
      | _ => none
    else if 0xF0 ≤ b && b ≤ 0xF4 then
      match rest with
      | c1 :: c2 :: c3 :: rest3 =>
        let lo1 : Nat := if b = 0xF0 then 0x90 else 0x80
        let hi1 : Nat := if b = 0xF4 then 0x8F else 0xBF
        if (lo1 ≤ c1 && c1 ≤ hi1) && isUtf8Cont c2 && isUtf8Cont c3 then
          match utf8Decode rest3 with
          | some cs =>
            some (Char.ofNat
              ((b - 0xF0) * 0x40000 + (c1 - 0x80) * 0x1000 + (c2 - 0x80) * 0x40 + (c3 - 0x80)) :: cs)
          | none => none
        else none
      | _ => none
    else none

/-- Model of `std::fs::read_to_string`: succeeds iff the bytes are valid
UTF-8, returning the decoded string. -/
def readToString (bytes : List Nat) : Option String :=
  (utf8Decode bytes).map fun cs => String.mk cs

/-- One filesystem object as seen by `DefaultPreviewLoader::load`:
* `fileName` — `path.file_name().unwrap_or_default().to_string_lossy()`;
* `isDir` — `path.is_dir()`;
* `dirTree` — the indented tree the `walkdir` loop renders for a directory
  (depth ≤ 3), kept abstract as the resulting string;
* `imageDims` — result of content-sniffing the file with the `image` crate
  (`ImageReader::open` / `with_guessed_format` / `into_dimensions`):
  `some (w, h)` on success, `none` on any failure in that chain;
* `extension` — `path.extension()`, already lowercased as the code does;
* `bytes` — the file's full byte content (`meta.len() = bytes.length`). -/
structure FileModel where
  fileName : String
  isDir : Bool
  dirTree : String
  imageDims : Option (Nat × Nat)
  extension : Option String
  bytes : List Nat
deriving Repr

/-- The known-image-extension fallback list of `load`. -/
def imageExtensions : List String :=
  ["png", "jpg", "jpeg", "gif", "bmp", "webp", "ico", "tiff"]

/-- Does the extension match the known-image fallback list? -/
def hasImageExtension (f : FileModel) : Bool :=
  match f.extension with
  | some ext => imageExtensions.contains ext
  | none => false

/-- Shallow embedding of `DefaultPreviewLoader::load` (`app.rs`):
directory → tree text; image-sniff success → `Image{w,h}`; known image
extension (sniff failed) → `Image{0,0}`; valid-UTF-8 content → `Text` with
the entire content; otherwise → `Binary{byte length}`.  (The only `Err`
return of the Rust function needs `read_to_string` *and* `std::fs::metadata`
to both fail; with the file's bytes given, the metadata read cannot fail, so
the model returns `PreviewContent` directly.) -/
def load (f : FileModel) : PreviewContent :=
  let title := f.fileName
  if f.isDir then
    .text title f.dirTree
  else
    match f.imageDims with
    | some (w, h) => .image title w h "Unknown"
    | none =>
      if hasImageExtension f then
        .image title 0 0 "Unknown (Metadata Load Failed)"
      else
        match readToString f.bytes with
        | some content => .text title content
        | none => .binary title f.bytes.length

/-! ## Directory reader (`read_entries`) -/

/-- Raw data of one `std::fs::read_dir` entry whose metadata read
succeeded: file name, directory flag, byte size and permission mode word. -/
structure RawDirEntry where
  name : String
  is_dir : Bool
  size : Nat
  mode : Nat
deriving DecidableEq, Repr

/-- The 10-character permission string `read_entries` renders (`perms_str`
in the source): `d` or `-`, then `rwx`-or-`-` for owner, group, other. -/
def permString (is_dir : Bool) (mode : Nat) : String :=
  String.mk
    [ if is_dir then 'd' else '-',
      if mode &&& 0o400 ≠ 0 then 'r' else '-',
      if mode &&& 0o200 ≠ 0 then 'w' else '-',
      if mode &&& 0o100 ≠ 0 then 'x' else '-',
      if mode &&& 0o040 ≠ 0 then 'r' else '-',
      if mode &&& 0o020 ≠ 0 then 'w' else '-',
      if mode &&& 0o010 ≠ 0 then 'x' else '-',
      if mode &&& 0o004 ≠ 0 then 'r' else '-',
      if mode &&& 0o002 ≠ 0 then 'w' else '-',
      if mode &&& 0o001 ≠ 0 then 'x' else '-' ]

/-- Build the `FsEntry` for one raw directory entry, as the `map` closure
inside `read_entries` does. -/
def RawDirEntry.toFsEntry (cwd : Path) (r : RawDirEntry) : FsEntry :=
  { path := cwd.join r.name, name := r.name, is_dir := r.is_dir,
    size := r.size, permissions := permString r.is_dir r.mode }

/-- The comparator `read_entries` sorts by, as a Boolean "a before-or-equal
b": directories strictly before files, then name order (`a.name.cmp(&b.name)`,
which for valid UTF-8 agrees with code-point lexicographic order). -/
def entryLeB (a b : FsEntry) : Bool :=
  if a.is_dir = b.is_dir then decide (a.name ≤ b.name) else a.is_dir

/-- `entryLeB` as a relation. -/
def entryLe (a b : FsEntry) : Prop := entryLeB a b = true

instance : DecidableRel entryLe :=
  fun a b => inferInstanceAs (Decidable (entryLeB a b = true))

instance : IsTotal FsEntry entryLe where
  total a b := by
    unfold entryLe entryLeB
    cases ha : a.is_dir <;> cases hb : b.is_dir <;> simp <;>
      exact le_total a.name.data b.name.data

instance : IsTrans FsEntry entryLe where
  trans a b c hab hbc := by
    unfold entryLe entryLeB at hab hbc ⊢
    cases ha : a.is_dir <;> cases hb : b.is_dir <;> cases hc : c.is_dir <;>
      simp_all <;> exact le_trans hab hbc

/-- Shallow embedding of `read_entries` (`app.rs`): map each raw entry to
an `FsEntry`, then sort by the directories-first / name comparator (the
source uses a stable `sort_by`; a stable insertion sort with the same
comparator produces the same ordering guarantees). -/
def read_entries (cwd : Path) (raw : List RawDirEntry) : List FsEntry :=
  List.insertionSort entryLe (raw.map (RawDirEntry.toFsEntry cwd))

/-! ## Invariants and concrete fixtures -/

/-- The cursor-bounds invariant of the spec's data model:
`0 ≤ cursor < len(entries)` whenever `entries` is non-empty, else
`cursor == 0`. -/
abbrev cursorInv (s : AppState) : Prop :=
  (s.entries ≠ [] → s.cursor < s.entries.length) ∧ (s.entries = [] → s.cursor = 0)

/-- Directory entry `A` of the spec's listing example. -/
def entryA : FsEntry := RawDirEntry.toFsEntry ["r"] ⟨"A", true, 0, 0o755⟩

/-- File entry `b.txt` of the spec's listing example. -/
def entryB : FsEntry := RawDirEntry.toFsEntry ["r"] ⟨"b.txt", false, 3, 0o644⟩

/-- A state listing `[A, b.txt]` with the cursor on `b.txt` and `A`
selected. -/
def sampleState : AppState :=
  { cwd := ["r"], entries := [entryA, entryB], cursor := 1,
    selected := [["r", "A"]], preview := .none, clipboard := Option.none,
    active_focus := .fileList, preview_scroll := 0, popup := .none }

/-- Oracle on which every directory read succeeds with an empty listing and
every metadata read fails. -/
def fsEmpty : FsOracle :=
  { readEntries := fun _ => some [], metadataMode := fun _ => Option.none }

/-- Oracle on which every filesystem read fails. -/
def fsFail : FsOracle :=
  { readEntries := fun _ => Option.none, metadataMode := fun _ => Option.none }

/-- Oracle on which every directory read succeeds with the listing
`[A, b.txt]`. -/
def fsSample : FsOracle :=
  { readEntries := fun _ => some [entryA, entryB], metadataMode := fun _ => Option.none }

/-- A zero-length regular file with no image signature and no extension. -/
def emptyFile : FileModel :=
  { fileName := "empty", isDir := false, dirTree := "",
    imageDims := Option.none, extension := Option.none, bytes := [] }

/-! ## C1 — preview classification of a zero-length file -/

/-- C1 (counterexample): the claim says `load` on a zero-length file with
no image signature returns `Binary{size=0}`; in the code
`std::fs::read_to_string` succeeds on the empty byte sequence (it is valid
UTF-8), so `load` returns `Text` with empty content, not `Binary{size=0}`. -/
theorem load_zero_length_counterexample :
    load emptyFile = .text "empty" "" ∧ load emptyFile ≠ .binary "empty" 0 := by
  decide

/-- C1 (amended): for every zero-length non-directory file whose image
content-sniffing fails, `load` returns `Image{0,0}` when the extension is a
known image type, and otherwise `Text` with empty content (the empty byte
sequence decodes as valid UTF-8); it never returns `Binary{size=0}`. -/
theorem load_zero_length_amended (f : FileModel) (hd : f.isDir = false)
    (hi : f.imageDims = Option.none) (hb : f.bytes = []) :
    load f = if hasImageExtension f then
               .image f.fileName 0 0 "Unknown (Metadata Load Failed)"
             else .text f.fileName "" := by
  have hdec : utf8Decode [] = some [] := rfl
  unfold load readToString
  by_cases he : hasImageExtension f <;> simp [hd, hi, hb, he, hdec]

/-- C1 (witness): the amended theorem evaluated on the concrete zero-length
file. -/
theorem load_zero_length_witness : load emptyFile = .text "empty" "" := by
  have h := load_zero_length_amended emptyFile rfl rfl rfl
  simpa using h

/-! ## C8 — directory listing order -/

/-- C8: every `read_entries` result puts every directory before every file
and is alphabetical by name within each of the two groups; the example
directory with directory `A` and file `b.txt` lists as `[A, b.txt]`. -/
theorem read_entries_sorted :
    (∀ (cwd : Path) (raw : List RawDirEntry),
      (read_entries cwd raw).Pairwise (fun a b =>
        (b.is_dir = true → a.is_dir = true) ∧ (a.is_dir = b.is_dir → a.name ≤ b.name)))
  ∧ read_entries ["r"] [⟨"b.txt", false, 3, 0o644⟩, ⟨"A", true, 0, 0o755⟩]
      = [entryA, entryB] := by
  constructor
  · intro cwd raw
    have hs : List.Sorted entryLe (read_entries cwd raw) :=
      List.sorted_insertionSort entryLe _
    refine List.Pairwise.imp ?_ hs
    intro a b hab
    unfold entryLe entryLeB at hab
    by_cases hd : a.is_dir = b.is_dir
    · simp only [if_pos hd, decide_eq_true_eq] at hab
      exact ⟨fun hb => hd.trans hb, fun _ => hab⟩
    · simp only [if_neg hd] at hab
      exact ⟨fun _ => hab, fun h => absurd h hd⟩
  · decide

/-- C8 (witness): the sortedness property evaluated on the concrete
two-entry directory. -/
theorem read_entries_sorted_witness :
    (read_entries ["r"] [⟨"b.txt", false, 3, 0o644⟩, ⟨"A", true, 0, 0o755⟩]).Pairwise
      (fun a b => (b.is_dir = true → a.is_dir = true)
        ∧ (a.is_dir = b.is_dir → a.name ≤ b.name)) :=
  read_entries_sorted.1 ["r"] [⟨"b.txt", false, 3, 0o644⟩, ⟨"A", true, 0, 0o755⟩]

/-! ## C9 — popup actions are no-ops while the popup is closed -/

/-- C9: with the popup closed, every popup action returns the state
unchanged and issues no filesystem request (no mutation, no reload). -/
theorem popup_actions_closed_noop (fs : FsOracle) (s : AppState)
    (h : s.popup = .none) (a : Action)
    (ha : a = .popupUp ∨ a = .popupDown ∨ a = .popupLeft ∨ a = .popupRight ∨
          a = .popupToggle ∨ a = .popupSubmit ∨ a = .popupCancel) :
    reduce fs s a = (s, []) := by
  have hs : { s with popup := PopupState.none } = s := by
    cases s; simp_all
  rcases ha with rfl | rfl | rfl | rfl | rfl | rfl | rfl <;>
    simp [reduce, h, hs]

/-- C9 (witness): each popup action evaluated on a concrete closed-popup
state. -/
theorem popup_actions_closed_noop_witness :
    reduce fsSample sampleState .popupToggle = (sampleState, []) ∧
    reduce fsSample sampleState .popupSubmit = (sampleState, []) := by
  constructor
  · exact popup_actions_closed_noop fsSample sampleState rfl .popupToggle (by simp)
  · exact popup_actions_closed_noop fsSample sampleState rfl .popupSubmit (by simp)

/-! ## C10 — Yank with nothing to yank is a complete no-op -/

/-- C10: if the selection is empty and there is no entry at the cursor,
`Yank` leaves the whole state (clipboard and selection included) unchanged
and issues no filesystem request; in particular it never stores a clipboard
with an empty path list. -/
theorem yank_empty_noop (fs : FsOracle) (s : AppState)
    (h1 : s.selected = []) (h2 : s.entries[s.cursor]? = Option.none) :
    reduce fs s .yank = (s, []) := by
  unfold reduce
  simp [h1, h2]

/-- C10 (witness): `Yank` on a concrete state with empty selection and an
empty entry list. -/
theorem yank_empty_noop_witness :
    reduce fsSample (initialState ["r"] []) .yank = (initialState ["r"] [], []) :=
  yank_empty_noop fsSample (initialState ["r"] []) rfl rfl

/-! ## C4 — EnterDir is atomic -/

/-- C4: `EnterDir` is atomic. If the entry at the cursor is missing or not
a directory, the step is a complete no-op (state unchanged, no filesystem
request); if the target directory's read fails, the state is unchanged; on
success `cwd` and `entries` are replaced and `cursor`, `preview` and
`preview_scroll` are reset in the same step, all other fields unchanged. -/
theorem enterDir_atomic (fs : FsOracle) (s : AppState) :
    ((∀ e, s.entries[s.cursor]? = some e → e.is_dir = false) →
      reduce fs s .enterDir = (s, []))
  ∧ (∀ e, s.entries[s.cursor]? = some e → e.is_dir = true → e.path ≠ s.cwd →
      fs.readEntries e.path = Option.none → (reduce fs s .enterDir).1 = s)
  ∧ (∀ e l, s.entries[s.cursor]? = some e → e.is_dir = true → e.path ≠ s.cwd →
      fs.readEntries e.path = some l →
      (reduce fs s .enterDir).1 =
        { s with cwd := e.path, entries := l, cursor := 0,
                 preview := .none, preview_scroll := 0 }) := by
  refine ⟨?_, ?_, ?_⟩
  · intro h
    unfold reduce
    cases hget : s.entries[s.cursor]? with
    | none => simp [hget]
    | some e => simp [hget, h e hget]
  · intro e he hdir hne hfs
    unfold reduce
    simp [he, hdir, hne, hfs]
  · intro e l he hdir hne hfs
    unfold reduce
    simp [he, hdir, hne, hfs]

/-- The sample state with the cursor on the directory entry `A`. -/
def dirCursorState : AppState := { sampleState with cursor := 0 }

/-- C4 (witness): `EnterDir` on a non-directory entry is a complete no-op,
and on a directory entry with a readable (empty) target replaces the
navigation fields. -/
theorem enterDir_atomic_witness :
    reduce fsFail sampleState .enterDir = (sampleState, []) ∧
    (reduce fsEmpty dirCursorState .enterDir).1 =
      { dirCursorState with
        cwd := ["r", "A"], entries := [], cursor := 0,
        preview := .none, preview_scroll := 0 } := by
  constructor
  · exact (enterDir_atomic fsFail sampleState).1 (by
      intro e he
      have h : sampleState.entries[sampleState.cursor]? = some entryB := by decide
      rw [h] at he
      injection he with h2
      exact h2 ▸ rfl)
  · exact (enterDir_atomic fsEmpty dirCursorState).2.2 entryA [] (by decide) rfl
      (by decide) rfl

/-! ## C5 — PopupToggle is an involutive single-bit XOR -/

/-- The toggle table sets exactly the bit `2 ^ (8 - i)`: row `i / 3`
(owner, group, other) and column `i % 3` (read, write, execute) address the
standard POSIX bit. -/
theorem toggleBit_eq {i : Nat} (hi : i < 9) : toggleBit i = 2 ^ (8 - i) := by
  interval_cases i <;> rfl

/-- C5: in the editing popup, `PopupToggle` XORs exactly the single POSIX
bit `2 ^ (8 - i)` selected by the grid cursor into the pending mode;
toggling twice restores the original mode; the XOR never changes any bit
above the low 9 bits; the four popup navigation actions keep the mode word
intact; and `PopupSubmit` requests `set_permissions` with the full pending
mode word (high bits included). -/
theorem popupToggle_xor (fs : FsOracle) (s : AppState) (p : Path) (m i : Nat)
    (hp : s.popup = .chmod p m i) (hi : i < 9) :
    ((reduce fs s .popupToggle).1.popup = .chmod p (m ^^^ 2 ^ (8 - i)) i)
  ∧ ((reduce fs (reduce fs s .popupToggle).1 .popupToggle).1.popup = .chmod p m i)
  ∧ (∀ j, 9 ≤ j → (m ^^^ 2 ^ (8 - i)).testBit j = m.testBit j)
  ∧ (∀ a, a = .popupUp ∨ a = .popupDown ∨ a = .popupLeft ∨ a = .popupRight →
      ∃ i2, (reduce fs s a).1.popup = .chmod p m i2)
  ∧ ((reduce fs s .popupSubmit).2 = [.setPermissions p m, .readDir s.cwd]) := by
  have hbit : toggleBit i ≠ 0 := by
    rw [toggleBit_eq hi]; positivity
  have h1 : (reduce fs s .popupToggle).1 =
      { s with popup := .chmod p (m ^^^ 2 ^ (8 - i)) i } := by
    unfold reduce
    simp [hp, hbit, toggleBit_eq hi]
  refine ⟨by rw [h1], ?_, ?_, ?_, ?_⟩
  · rw [h1]
    unfold reduce
    simp [hbit, toggleBit_eq hi, Nat.xor_cancel_right]
  · intro j hj
    rw [Nat.testBit_xor, Nat.testBit_two_pow_of_ne (by omega), Bool.xor_false]
  · rintro a (rfl | rfl | rfl | rfl)
    · by_cases h3 : 3 ≤ i
      · exact ⟨i - 3, by unfold reduce; simp [hp, h3]⟩
      · exact ⟨i, by unfold reduce; simp [hp, h3]⟩
    · by_cases h3 : i < 6
      · exact ⟨i + 3, by unfold reduce; simp [hp, h3]⟩
      · exact ⟨i, by unfold reduce; simp [hp, h3]⟩
    · by_cases h3 : 0 < i % 3
      · exact ⟨i - 1, by unfold reduce; simp [hp, h3]⟩
      · exact ⟨i, by unfold reduce; simp [hp, h3]⟩
    · by_cases h3 : i % 3 < 2
      · exact ⟨i + 1, by unfold reduce; simp [hp, h3]⟩
      · exact ⟨i, by unfold reduce; simp [hp, h3]⟩
  · unfold reduce
    cases hfs : fs.readEntries s.cwd <;> simp [hp, hfs]

/-- The sample state with the permission popup open on mode `0o644` and the
grid cursor at owner-write (index 1). -/
def chmodState : AppState :=
  { sampleState with popup := .chmod ["r", "f"] 0o644 1 }

/-- C5 (witness): the spec's example — mode `0o644`, cursor at owner-write:
one toggle yields `0o444`, a second yields `0o644` again. -/
theorem popupToggle_xor_witness :
    (reduce fsSample chmodState .popupToggle).1.popup = .chmod ["r", "f"] 0o444 1 ∧
    (reduce fsSample (reduce fsSample chmodState .popupToggle).1 .popupToggle).1.popup
      = .chmod ["r", "f"] 0o644 1 := by
  have h := popupToggle_xor fsSample chmodState ["r", "f"] 0o644 1 rfl (by decide)
  exact ⟨by rw [h.1]; decide, h.2.1⟩

/-! ## C6 — popup navigation is clamped to the 3×3 grid -/

/-- C6: in the editing popup, `PopupUp`/`PopupDown` move the grid cursor by
−3/+3 and `PopupLeft`/`PopupRight` by −1/+1, clamped: Up from the top row,
Down from the bottom row, Left from column 0 and Right from column 2 are
no-ops; every result stays in `[0, 8]` and horizontal moves never change
the row `i / 3`. -/
theorem popup_navigation_clamped (fs : FsOracle) (s : AppState) (p : Path) (m i : Nat)
    (hp : s.popup = .chmod p m i) (hi : i < 9) :
    ((reduce fs s .popupUp).1.popup = .chmod p m (if 3 ≤ i then i - 3 else i))
  ∧ ((reduce fs s .popupDown).1.popup = .chmod p m (if i < 6 then i + 3 else i))
  ∧ ((reduce fs s .popupLeft).1.popup = .chmod p m (if 0 < i % 3 then i - 1 else i))
  ∧ ((reduce fs s .popupRight).1.popup = .chmod p m (if i % 3 < 2 then i + 1 else i))
  ∧ ((if 3 ≤ i then i - 3 else i) < 9 ∧ (if i < 6 then i + 3 else i) < 9
     ∧ (if 0 < i % 3 then i - 1 else i) < 9 ∧ (if i % 3 < 2 then i + 1 else i) < 9
     ∧ (i < 3 → (if 3 ≤ i then i - 3 else i) = i)
     ∧ (6 ≤ i → (if i < 6 then i + 3 else i) = i)
     ∧ (i % 3 = 0 → (if 0 < i % 3 then i - 1 else i) = i)
     ∧ (i % 3 = 2 → (if i % 3 < 2 then i + 1 else i) = i)
     ∧ (if 0 < i % 3 then i - 1 else i) / 3 = i / 3
     ∧ (if i % 3 < 2 then i + 1 else i) / 3 = i / 3) := by
  refine ⟨?_, ?_, ?_, ?_, ?_⟩
  · by_cases h : 3 ≤ i <;> simp [reduce, hp, h]
  · by_cases h : i < 6 <;> simp [reduce, hp, h]
  · by_cases h : 0 < i % 3 <;> simp [reduce, hp, h]
  · by_cases h : i % 3 < 2 <;> simp [reduce, hp, h]
  · split_ifs <;> omega

/-- The sample state with the permission popup open and the grid cursor at
the centre cell (index 4, group-write). -/
def chmodMid : AppState :=
  { sampleState with popup := .chmod ["r", "f"] 0o644 4 }

/-- C6 (witness): from the centre cell, Up moves to index 1 and Right to
index 5. -/
theorem popup_navigation_clamped_witness :
    (reduce fsSample chmodMid .popupUp).1.popup = .chmod ["r", "f"] 0o644 1 ∧
    (reduce fsSample chmodMid .popupRight).1.popup = .chmod ["r", "f"] 0o644 5 := by
  have h := popup_navigation_clamped fsSample chmodMid ["r", "f"] 0o644 4 rfl (by decide)
  exact ⟨by rw [h.1]; decide, by rw [h.2.2.2.1]; decide⟩

/-! ## C7 — Yank stores the target set, then clears the selection -/

/-- C7: `Yank` stores `(Copy, S)` where `S` is the selection when
non-empty, and then clears the selection; hence a second `Yank` with no
intervening action stores exactly the singleton of the entry at the cursor,
not the first target set. -/
theorem yank_twice (fs : FsOracle) (s : AppState) (e : FsEntry)
    (hsel : s.selected ≠ []) (he : s.entries[s.cursor]? = some e) :
    (reduce fs s .yank).1.clipboard = some (.copy, s.selected)
  ∧ (reduce fs s .yank).1.selected = []
  ∧ (reduce fs (reduce fs s .yank).1 .yank).1.clipboard = some (.copy, [e.path]) := by
  have h1 : (reduce fs s .yank).1 =
      { s with clipboard := some (.copy, s.selected), selected := [] } := by
    unfold reduce
    simp [hsel]
  refine ⟨by rw [h1], by rw [h1], ?_⟩
  rw [h1]
  unfold reduce
  simp [he]

/-- C7 (witness): on the sample state (selection `{A}`, cursor on `b.txt`),
the first `Yank` stores `{A}` and the second stores `{b.txt}`. -/
theorem yank_twice_witness :
    (reduce fsSample sampleState .yank).1.clipboard = some (.copy, [["r", "A"]]) ∧
    (reduce fsSample (reduce fsSample sampleState .yank).1 .yank).1.clipboard
      = some (.copy, [["r", "b.txt"]]) := by
  have h := yank_twice fsSample sampleState entryB (by decide) (by decide)
  exact ⟨by rw [h.1]; decide, by rw [h.2.2]; decide⟩

/-! ## C2 — which actions touch the SelectionSet -/

/-- C2 (counterexample): the claim says only `Yank` clears the selection
and all other actions (`ToggleSelect` apart) leave its membership
unchanged, but `Delete` also clears it: on the sample state the selected
path `["r","A"]` is gone after a `Delete`. -/
theorem selection_clearing_counterexample :
    (["r", "A"] ∈ sampleState.selected) ∧
    ["r", "A"] ∉ (reduce fsEmpty sampleState .delete).1.selected := by
  decide

/-- C2 (amended): `Yank` (on a non-empty selection) and `Delete` are the
only actions that clear the SelectionSet; every other action leaves it
unchanged, except `ToggleSelect`, which toggles membership of exactly the
entry-at-cursor path (and is the identity when there is no entry at the
cursor). -/
theorem selection_frame_amended (fs : FsOracle) (s : AppState) :
    (∀ a, a ≠ .yank → a ≠ .delete → a ≠ .toggleSelect →
       (reduce fs s a).1.selected = s.selected)
  ∧ (s.selected ≠ [] → (reduce fs s .yank).1.selected = [])
  ∧ ((reduce fs s .delete).1.selected = [])
  ∧ (∀ e, s.entries[s.cursor]? = some e → s.selected.Nodup →
       ∀ p : Path, p ∈ (reduce fs s .toggleSelect).1.selected ↔
         ((p ∈ s.selected ∧ p ≠ e.path) ∨ (p = e.path ∧ p ∉ s.selected)))
  ∧ (s.entries[s.cursor]? = Option.none →
       (reduce fs s .toggleSelect).1.selected = s.selected) := by
  refine ⟨?_, ?_, ?_, ?_, ?_⟩
  · intro a h1 h2 h3
    cases a
    all_goals first
      | exact absurd rfl h1
      | exact absurd rfl h2
      | exact absurd rfl h3
      | (simp only [reduce]
         repeat' split
         all_goals rfl)
  · intro hsel
    unfold reduce
    simp [hsel]
  · unfold reduce
    cases hfs : fs.readEntries s.cwd <;> simp [hfs]
  · intro e he hnd p
    unfold reduce
    rw [he]
    by_cases hmem : e.path ∈ s.selected
    · simp only [if_pos hmem]
      rw [List.Nodup.mem_erase_iff hnd]
      constructor
      · rintro ⟨hne, hm⟩
        exact Or.inl ⟨hm, hne⟩
      · rintro (⟨hm, hne⟩ | ⟨rfl, hnm⟩)
        · exact ⟨hne, hm⟩
        · exact absurd hmem hnm
    · simp only [if_neg hmem, List.mem_cons]
      constructor
      · rintro (rfl | hm)
        · exact Or.inr ⟨rfl, hmem⟩
        · exact Or.inl ⟨hm, fun hpe => hmem (hpe ▸ hm)⟩
      · rintro (⟨hm, _⟩ | ⟨rfl, _⟩)
        · exact Or.inr hm
        · exact Or.inl rfl
  · intro hnone
    unfold reduce
    simp [hnone]

/-- C2 (witness): on the sample state, `EnterDir` leaves the selection
unchanged and `Delete` clears it. -/
theorem selection_frame_witness :
    (reduce fsSample sampleState .enterDir).1.selected = sampleState.selected ∧
    (reduce fsSample sampleState .delete).1.selected = [] := by
  have h := selection_frame_amended fsSample sampleState
  exact ⟨h.1 .enterDir (by decide) (by decide) (by decide), h.2.2.1⟩

/-! ## C3 — the cursor-bounds invariant -/

/-- C3 (counterexample): the claim says every action preserves the
cursor-bounds invariant, but a `Delete` whose reload empties the listing
leaves the cursor where it was: on the sample state (cursor 1, path `A`
selected) with a reload that returns the empty listing, the resulting
state has `entries = []` and `cursor = 1`, violating the `cursor == 0`
clause for an empty listing. -/
theorem cursor_invariant_counterexample :
    cursorInv sampleState
    ∧ (reduce fsEmpty sampleState .delete).1.entries = []
    ∧ (reduce fsEmpty sampleState .delete).1.cursor = 1
    ∧ ¬ cursorInv (reduce fsEmpty sampleState .delete).1 := by
  decide

/-- C3 (amended): the invariant holds in the initial state and is preserved
by every action except the three whose directory reload can strand the
cursor: `Delete` preserves the non-empty half (`cursor < len` whenever the
reloaded listing is non-empty) but can leave `cursor ≠ 0` when the reload
empties the listing, and `Paste`/`PopupSubmit` (which reload without
clamping) preserve the invariant provided the reloaded listing, when the
reload succeeds, is longer than the current cursor index. -/
theorem cursor_invariant_amended :
    (∀ (cwd : Path) (es : List FsEntry), cursorInv (initialState cwd es))
  ∧ (∀ (fs : FsOracle) (s : AppState) (a : Action), cursorInv s →
      a ≠ .paste → a ≠ .delete → a ≠ .popupSubmit → cursorInv (reduce fs s a).1)
  ∧ (∀ (fs : FsOracle) (s : AppState), cursorInv s →
      ((reduce fs s .delete).1.entries ≠ [] →
        (reduce fs s .delete).1.cursor < (reduce fs s .delete).1.entries.length))
  ∧ (∀ (fs : FsOracle) (s : AppState), cursorInv s →
      (∀ l, fs.readEntries s.cwd = some l → s.cursor < l.length) →
      cursorInv (reduce fs s .paste).1 ∧ cursorInv (reduce fs s .popupSubmit).1) := by
  refine ⟨?_, ?_, ?_, ?_⟩
  · intro cwd es
    exact ⟨fun h => List.length_pos.mpr h, fun _ => rfl⟩
  · intro fs s a h hpa hde hsu
    obtain ⟨h1, h2⟩ := h
    cases a
    case paste => exact absurd rfl hpa
    case delete => exact absurd rfl hde
    case popupSubmit => exact absurd rfl hsu
    case cursorMoveUp =>
      simp only [reduce]
      split
      · split
        · exact ⟨fun hne => lt_of_le_of_lt (Nat.sub_le _ _) (h1 hne),
                 fun he => by rw [h2 he]⟩
        · exact ⟨h1, h2⟩
      · exact ⟨h1, h2⟩
    case cursorMoveDown =>
      simp only [reduce]
      split
      · split
        · rename_i hlt
          exact ⟨fun _ => hlt, fun he => by rw [he] at hlt; simp at hlt⟩
        · exact ⟨h1, h2⟩
      · exact ⟨h1, h2⟩
    case enterDir =>
      simp only [reduce]
      repeat' split
      all_goals first
        | exact ⟨h1, h2⟩
        | exact ⟨fun hne => List.length_pos.mpr hne, fun _ => rfl⟩
    case goBack =>
      simp only [reduce]
      repeat' split
      all_goals first
        | exact ⟨h1, h2⟩
        | exact ⟨fun hne => List.length_pos.mpr hne, fun _ => rfl⟩
    all_goals
      simp only [reduce]
      repeat' split
      all_goals exact ⟨h1, h2⟩
  · intro fs s h
    obtain ⟨h1, h2⟩ := h
    simp only [reduce]
    cases hfs : fs.readEntries s.cwd with
    | none => exact h1
    | some l =>
      simp only
      intro hne
      have hl : 0 < l.length := List.length_pos.mpr hne
      split
      · omega
      · rename_i hcond
        rw [not_and_or] at hcond
        rcases hcond with hc | hc
        · omega
        · exact absurd (show l = [] by simpa using hc) hne
  · intro fs s h hor
    obtain ⟨h1, h2⟩ := h
    constructor
    · simp only [reduce]
      rcases hcb : s.clipboard with _ | ⟨op, srcs⟩
      · exact ⟨h1, h2⟩
      · cases op
        cases hfs : fs.readEntries s.cwd with
        | none => exact ⟨h1, h2⟩
        | some l =>
          have hc := hor l hfs
          exact ⟨fun _ => hc, fun he => by
            have hl2 : l = [] := he
            rw [hl2] at hc
            simp at hc⟩
    · simp only [reduce]
      rcases hpp : s.popup with _ | ⟨p, m, i⟩
      · exact ⟨h1, h2⟩
      · cases hfs : fs.readEntries s.cwd with
        | none => exact ⟨h1, h2⟩
        | some l =>
          have hc := hor l hfs
          exact ⟨fun _ => hc, fun he => by
            have hl2 : l = [] := he
            rw [hl2] at hc
            simp at hc⟩

/-- C3 (witness): the preserved cases evaluated on the sample state:
`CursorMoveDown` keeps the invariant, and `Paste` keeps it when the reload
returns the same two-entry listing. -/
theorem cursor_invariant_witness :
    cursorInv (reduce fsSample sampleState .cursorMoveDown).1 ∧
    cursorInv (reduce fsSample sampleState .paste).1 := by
  constructor
  · exact cursor_invariant_amended.2.1 fsSample sampleState .cursorMoveDown
      (by decide) (by decide) (by decide) (by decide)
  · exact (cursor_invariant_amended.2.2.2 fsSample sampleState (by decide)
      (by intro l hl; simp [fsSample] at hl; subst hl; decide)).1

end FileManagement
